import Mathlib

/-!
Verification of the per-partition Process Queue of the RocketMQ C++ client
(`cpp/source/rocketmq/ProcessQueueImpl.cpp`), shallowly embedded in Lean.

Machine 64-bit unsigned counters are modelled as `Nat` values taken modulo
`2 ^ 64` at every update, exactly mirroring the wraparound of
`std::atomic<std::uint64_t>::fetch_add` / `fetch_sub`.  A `std::weak_ptr`
is modelled as an `Option`: `lock()` yields `some` while the referent is
alive and `none` after it is destroyed.  Monotone steady-clock instants are
modelled as `Nat`.
-/

namespace RocketMQ

/-- Modulus of the 64-bit unsigned counters (`std::uint64_t`). -/
def U64MOD : Nat := 2 ^ 64

/-- `FilterExpression::type_` of the client-side filter registry
(values `TAG` and `SQL92`). -/
inductive ExpressionType
  | TAG
  | SQL92
deriving DecidableEq, Repr

/-- Client-side `FilterExpression`: a type tag plus the expression text. -/
structure FilterExpression where
  type_ : ExpressionType
  content_ : String
deriving DecidableEq, Repr

/-- Wire-level `rmq::FilterType` (values `TAG` and `SQL`). -/
inductive FilterType
  | TAG
  | SQL
deriving DecidableEq, Repr

/-- Wire-level `rmq::FilterExpression` descriptor inside the request. -/
structure WireFilterExpression where
  type : FilterType
  expression : String
deriving DecidableEq, Repr

/-- A topic resource (`rmq::Resource`), reduced to its name. -/
structure Resource where
  name : String
deriving DecidableEq, Repr

/-- `rmq::MessageQueue`: the (topic, queue) pair a process queue serves. -/
structure MessageQueue where
  topic : Resource
  id : Nat
deriving DecidableEq, Repr

/-- The slice of `PushConsumerImpl` the process queue reads: thresholds,
batch size, group, and the per-topic filter lookup
(`getFilterExpression`). -/
structure PushConsumerImpl where
  maxCachedMessageQuantity : Nat
  maxCachedMessageMemory : Nat
  receiveBatchSize : Nat
  group : String
  getFilterExpression : String → Option FilterExpression

/-- State of `ProcessQueueImpl`.  `consumer_` is the locked value of the
weak pointer to the owning consumer (`none` once the owner is destroyed);
the two cache counters are 64-bit unsigned values, hence `Nat` kept below
`U64MOD`; `invisible_time_` is in milliseconds; `idle_since_` is a
steady-clock instant. -/
structure ProcessQueueImpl where
  message_queue_ : MessageQueue
  consumer_ : Option PushConsumerImpl
  invisible_time_ : Nat
  cached_message_quantity_ : Nat
  cached_message_memory_ : Nat
  idle_since_ : Nat

/-- `ProcessQueueImpl::cachedMessageQuantity`: relaxed load of the counter. -/
def cachedMessageQuantity (pq : ProcessQueueImpl) : Nat :=
  pq.cached_message_quantity_

/-- `ProcessQueueImpl::cachedMessageMemory`: relaxed load of the counter. -/
def cachedMessageMemory (pq : ProcessQueueImpl) : Nat :=
  pq.cached_message_memory_

/-- `ProcessQueueImpl::shouldThrottle`: false when the owner is gone;
otherwise true when the cached quantity reaches the quantity threshold, or
when a non-zero memory threshold is configured and the cached bytes reach
it. -/
def shouldThrottle (pq : ProcessQueueImpl) : Bool :=
  match pq.consumer_ with
  | none => false
  | some consumer =>
    let quantity := pq.cached_message_quantity_
    let quantity_threshold := consumer.maxCachedMessageQuantity
    let memory_threshold := consumer.maxCachedMessageMemory
    if quantity ≥ quantity_threshold then
      true
    else if memory_threshold ≠ 0 then
      decide (pq.cached_message_memory_ ≥ memory_threshold)
    else
      false

/-- One iteration of the loop body of `ProcessQueueImpl::accountCache`:
`fetch_add(1)` on the quantity counter and `fetch_add(body().size())` on
the memory counter, each wrapping modulo `2 ^ 64`. -/
def accountCacheOne (pq : ProcessQueueImpl) (bodySize : Nat) : ProcessQueueImpl :=
  { pq with
    cached_message_quantity_ := (pq.cached_message_quantity_ + 1) % U64MOD
    cached_message_memory_ := (pq.cached_message_memory_ + bodySize) % U64MOD }

/-- `ProcessQueueImpl::accountCache`: no-op when the owner is gone;
otherwise admits each message of the batch, identified here by its body
size, into the counters. -/
def accountCache (pq : ProcessQueueImpl) (messages : List Nat) : ProcessQueueImpl :=
  match pq.consumer_ with
  | none => pq
  | some _ => messages.foldl accountCacheOne pq

/-- `ProcessQueueImpl::release`: no-op when the owner is gone; otherwise
`fetch_sub(1)` on the quantity counter and `fetch_sub(body_size)` on the
memory counter.  On `std::uint64_t` a subtraction of `v` is an addition of
`2 ^ 64 - v % 2 ^ 64` modulo `2 ^ 64`. -/
def release (pq : ProcessQueueImpl) (body_size : Nat) : ProcessQueueImpl :=
  match pq.consumer_ with
  | none => pq
  | some _ =>
    { pq with
      cached_message_quantity_ :=
        (pq.cached_message_quantity_ + (U64MOD - 1)) % U64MOD
      cached_message_memory_ :=
        (pq.cached_message_memory_ + (U64MOD - body_size % U64MOD)) % U64MOD }

/-- Modelled from the spec: `ProcessQueueImpl::syncIdleState` (declared in
`ProcessQueueImpl.h`, not under `src/`) refreshes the idle marker, setting
`idle_since_` to the current steady-clock instant. -/
def syncIdleState (pq : ProcessQueueImpl) (now : Nat) : ProcessQueueImpl :=
  { pq with idle_since_ := now }

/-- `ProcessQueueImpl::expired`: true when the elapsed time since
`idle_since_` strictly exceeds the expiration threshold.  The constant
`MixAll::PROCESS_QUEUE_EXPIRATION_THRESHOLD_` lives outside `src/`;
modelled from the spec as a fixed system-wide duration, it is a parameter
here. -/
def expired (threshold : Nat) (now : Nat) (pq : ProcessQueueImpl) : Bool :=
  decide (now - pq.idle_since_ > threshold)

/-- `ProcessQueueImpl::wrapFilterExpression`: leaves the wire descriptor
untouched when the owner is gone; otherwise consults the consumer's
subscription table for the partition's topic, copying a registered
filter's content verbatim with `TAG ↦ TAG` and `SQL92 ↦ SQL`, and
defaulting to a tag filter matching everything. -/
def wrapFilterExpression (pq : ProcessQueueImpl)
    (filter_expression : WireFilterExpression) : WireFilterExpression :=
  match pq.consumer_ with
  | none => filter_expression
  | some consumer =>
    match consumer.getFilterExpression pq.message_queue_.topic.name with
    | some expression =>
      match expression.type_ with
      | .TAG => { type := .TAG, expression := expression.content_ }
      | .SQL92 => { type := .SQL, expression := expression.content_ }
    | none => { type := .TAG, expression := "*" }

/-- C++ `std::string::substr(pos, len)`: the characters from position
`pos`, at most `len` of them, clamped at the end of the string. -/
def substr (s : String) (pos len : Nat) : String :=
  ((s.data.drop pos).take len).asString

/-- Free function `generateAttemptId` of `ProcessQueueImpl.cpp`: leaves
the attempt id unchanged when the raw unique identifier is shorter than 34
characters; otherwise overwrites it with the 8-4-4-4-12 hyphen grouping of
the identifier's first 32 characters.  The raw identifier, produced by
`UniqueIdGenerator::instance().next()` which lives outside `src/`, is a
parameter. -/
def generateAttemptId (attempt_id : String) (unique_id : String) : String :=
  if unique_id.length < 34 then
    attempt_id
  else
    substr unique_id 0 8 ++ "-" ++ substr unique_id 8 4 ++ "-" ++
      substr unique_id 12 4 ++ "-" ++ substr unique_id 16 4 ++ "-" ++
      substr unique_id 20 12

/-- Number of hyphen characters in a string. -/
def hyphenCount (s : String) : Nat :=
  s.data.count (Char.ofNat 45)

/-- The 8-4-4-4-12 hyphen grouping of a list of characters (intended for
the first 32 characters of a raw identifier). -/
def hyphenGroup32 (cs : List Char) : String :=
  (cs.take 8).asString ++ "-" ++ ((cs.drop 8).take 4).asString ++ "-" ++
    ((cs.drop 12).take 4).asString ++ "-" ++ ((cs.drop 16).take 4).asString ++
    "-" ++ ((cs.drop 20).take 12).asString

/-- Wire-level `rmq::ReceiveMessageRequest`, reduced to the fields
`wrapPopMessageRequest` sets. -/
structure ReceiveMessageRequest where
  group : String
  message_queue : MessageQueue
  filter_expression : WireFilterExpression
  batch_size : Nat
  auto_renew : Bool
  invisible_duration_seconds : Nat
  invisible_duration_nanos : Nat
  attempt_id : String
deriving DecidableEq, Repr

/-- `ProcessQueueImpl::wrapPopMessageRequest`: fills the request from the
owner's configuration, resolves the filter, splits the invisible duration
(held in milliseconds) into whole seconds and a nanosecond remainder,
generates a fresh attempt id only when the supplied one is empty, and
returns the request together with the (possibly updated) attempt id.  The
function asserts a live owner; an owner-gone call is modelled as `none`. -/
def wrapPopMessageRequest (pq : ProcessQueueImpl)
    (request : ReceiveMessageRequest) (attempt_id unique_id : String) :
    Option (ReceiveMessageRequest × String) :=
  match pq.consumer_ with
  | none => none
  | some consumer =>
    let request := { request with
      group := consumer.group
      message_queue := pq.message_queue_
      filter_expression := wrapFilterExpression pq request.filter_expression
      batch_size := consumer.receiveBatchSize
      auto_renew := true
      invisible_duration_seconds := pq.invisible_time_ / 1000
      invisible_duration_nanos := pq.invisible_time_ % 1000 * 1000000 }
    let attempt_id :=
      if attempt_id = "" then generateAttemptId attempt_id unique_id
      else attempt_id
    some ({ request with attempt_id := attempt_id }, attempt_id)

/-- `ProcessQueueImpl::popMessage`: no-op when the owner is gone;
otherwise wraps the request, refreshes the idle marker, and dispatches the
wrapped request through the client manager.  The observable outcome is the
new queue state, the attempt id, and the dispatched request (`none` when
nothing is sent). -/
def popMessage (pq : ProcessQueueImpl) (now : Nat)
    (attempt_id unique_id : String) (request : ReceiveMessageRequest) :
    ProcessQueueImpl × String × Option ReceiveMessageRequest :=
  match pq.consumer_ with
  | none => (pq, attempt_id, none)
  | some _ =>
    match wrapPopMessageRequest pq request attempt_id unique_id with
    | none => (pq, attempt_id, none)
    | some (request, attempt_id) => (syncIdleState pq now, attempt_id, some request)

/-- `ProcessQueueImpl::receiveMessage`: locks the owner, returning
silently when it is gone, and otherwise delegates to `popMessage`. -/
def receiveMessage (pq : ProcessQueueImpl) (now : Nat)
    (attempt_id unique_id : String) (request : ReceiveMessageRequest) :
    ProcessQueueImpl × String × Option ReceiveMessageRequest :=
  match pq.consumer_ with
  | none => (pq, attempt_id, none)
  | some _ => popMessage pq now attempt_id unique_id request

/-- Result of a receive call delivered by the transport
(`ReceiveMessageResult`), reduced to the body sizes of its messages. -/
structure ReceiveMessageResult where
  messages : List Nat
deriving DecidableEq, Repr

/-- `std::error_code`, reduced to its integer value. -/
structure ErrorCode where
  value : Int
deriving DecidableEq, Repr

/-- The completion sink (`AsyncReceiveMessageCallback`), reduced to an
identity; the process queue holds it only weakly inside the completion
lambda. -/
structure AsyncReceiveMessageCallback where
  id : Nat
deriving DecidableEq, Repr

/-- The completion lambda built in `ProcessQueueImpl::popMessage`: it
captures a weak reference to the sink, locks it when the transport fires,
does nothing if the sink is gone, and otherwise calls
`onCompletion(ec, attempt_id, result)`.  `cb` is the lock result; the
return value records which sink was invoked with which arguments, `none`
meaning the completion was dropped. -/
def popMessageCompletion (cb : Option AsyncReceiveMessageCallback)
    (ec : ErrorCode) (attempt_id : String) (result : ReceiveMessageResult) :
    Option (AsyncReceiveMessageCallback × ErrorCode × String × ReceiveMessageResult) :=
  match cb with
  | none => none
  | some receive_cb => some (receive_cb, ec, attempt_id, result)

/-- C1: for a live owner, `shouldThrottle` is true exactly when the cached
quantity reaches the quantity threshold or a non-zero memory threshold is
configured and the cached bytes reach it; once the owner is gone it is
always false. -/
theorem shouldThrottle_spec (pq : ProcessQueueImpl) :
    (∀ c, pq.consumer_ = some c →
      (shouldThrottle pq = true ↔
        c.maxCachedMessageQuantity ≤ pq.cached_message_quantity_ ∨
          (c.maxCachedMessageMemory ≠ 0 ∧
            c.maxCachedMessageMemory ≤ pq.cached_message_memory_))) ∧
    (pq.consumer_ = none → shouldThrottle pq = false) := by
  constructor
  · intro c hc
    simp only [shouldThrottle, hc]
    by_cases hq : c.maxCachedMessageQuantity ≤ pq.cached_message_quantity_
    · simp [hq]
    · by_cases hm : c.maxCachedMessageMemory = 0
      · simp [hq, hm]
      · simp [hq, hm]
  · intro hc
    simp [shouldThrottle, hc]

/-- A consumer fixture with quantity threshold 2 and memory threshold 0. -/
def demoConsumer : PushConsumerImpl :=
  { maxCachedMessageQuantity := 2
    maxCachedMessageMemory := 0
    receiveBatchSize := 32
    group := "demo-group"
    getFilterExpression := fun _ => none }

/-- A live process queue caching 3 messages of 12 bytes in total. -/
def demoQueue : ProcessQueueImpl :=
  { message_queue_ := { topic := { name := "demo-topic" }, id := 0 }
    consumer_ := some demoConsumer
    invisible_time_ := 15000
    cached_message_quantity_ := 3
    cached_message_memory_ := 12
    idle_since_ := 0 }

/-- Witness for C1: the live demo queue with 3 cached messages against a
quantity threshold of 2 throttles. -/
theorem shouldThrottle_spec_witness : shouldThrottle demoQueue = true :=
  ((shouldThrottle_spec demoQueue).1 demoConsumer rfl).mpr
    (Or.inl (by decide))

/-- C5: with a live owner, filter resolution writes `(TAG, "*")` when no
filter is registered for the partition's topic and copies a registered
filter verbatim with its type mapped (`TAG ↦ TAG`, `SQL92 ↦ SQL`); with
the owner gone the wire descriptor is returned untouched. -/
theorem wrapFilterExpression_spec (pq : ProcessQueueImpl)
    (fe : WireFilterExpression) :
    (pq.consumer_ = none → wrapFilterExpression pq fe = fe) ∧
    (∀ c, pq.consumer_ = some c →
      (c.getFilterExpression pq.message_queue_.topic.name = none →
        wrapFilterExpression pq fe = { type := .TAG, expression := "*" }) ∧
      (∀ e, c.getFilterExpression pq.message_queue_.topic.name = some e →
        (e.type_ = .TAG →
          wrapFilterExpression pq fe = { type := .TAG, expression := e.content_ }) ∧
        (e.type_ = .SQL92 →
          wrapFilterExpression pq fe = { type := .SQL, expression := e.content_ }))) := by
  refine ⟨fun h => by simp [wrapFilterExpression, h], fun c hc => ⟨fun hn => ?_, fun e he => ⟨fun ht => ?_, fun ht => ?_⟩⟩⟩
  · simp [wrapFilterExpression, hc, hn]
  · simp [wrapFilterExpression, hc, he, ht]
  · simp [wrapFilterExpression, hc, he, ht]

/-- A consumer fixture registering the SQL filter `a > 5` for the demo
topic. -/
def demoSqlConsumer : PushConsumerImpl :=
  { maxCachedMessageQuantity := 1024
    maxCachedMessageMemory := 0
    receiveBatchSize := 32
    group := "demo-group"
    getFilterExpression := fun topic =>
      if topic = "demo-topic" then
        some { type_ := .SQL92, content_ := "a > 5" }
      else
        none }

/-- A live process queue owned by the SQL-filter consumer fixture. -/
def demoSqlQueue : ProcessQueueImpl :=
  { message_queue_ := { topic := { name := "demo-topic" }, id := 0 }
    consumer_ := some demoSqlConsumer
    invisible_time_ := 15000
    cached_message_quantity_ := 0
    cached_message_memory_ := 0
    idle_since_ := 0 }

/-- Witness for C5: a registered SQL filter `a > 5` resolves to
`(SQL, "a > 5")` on the wire. -/
theorem wrapFilterExpression_spec_witness :
    wrapFilterExpression demoSqlQueue { type := .TAG, expression := "old" } =
      { type := .SQL, expression := "a > 5" } :=
  (((wrapFilterExpression_spec demoSqlQueue
      { type := .TAG, expression := "old" }).2 demoSqlConsumer rfl).2
    { type_ := .SQL92, content_ := "a > 5" } rfl).2 rfl

/-- C9: `expired` is true exactly when the elapsed time since
`idle_since_` exceeds the threshold; it is false at the instant
`syncIdleState` refreshes the marker, and true at any later instant whose
distance from the refresh exceeds the threshold. -/
theorem expired_spec (threshold now later : Nat) (pq : ProcessQueueImpl) :
    (expired threshold now pq = true ↔ threshold < now - pq.idle_since_) ∧
    expired threshold now (syncIdleState pq now) = false ∧
    (threshold < later - now →
      expired threshold later (syncIdleState pq now) = true) := by
  refine ⟨by simp [expired], by simp [expired, syncIdleState], fun h => ?_⟩
  simpa [expired, syncIdleState] using h

/-- Witness for C9: with threshold 30, a queue refreshed at instant 100 is
not expired at 100 and is expired at 131. -/
theorem expired_spec_witness :
    expired 30 100 (syncIdleState demoQueue 100) = false ∧
    expired 30 131 (syncIdleState demoQueue 100) = true :=
  ⟨(expired_spec 30 100 131 demoQueue).2.1,
    (expired_spec 30 100 131 demoQueue).2.2 (by decide)⟩

/-- C10: with a live owner and a zero quantity counter, `release` still
decrements unconditionally, so the unsigned 64-bit counter wraps to
`2 ^ 64 - 1`. -/
theorem release_wraps_at_zero (pq : ProcessQueueImpl) (c : PushConsumerImpl)
    (body_size : Nat) (hc : pq.consumer_ = some c)
    (h0 : pq.cached_message_quantity_ = 0) :
    (release pq body_size).cached_message_quantity_ = 2 ^ 64 - 1 := by
  simp only [release, hc, h0, U64MOD]
  omega

/-- Witness for C10: releasing one 4-byte message from the empty demo SQL
queue wraps its quantity counter to `2 ^ 64 - 1`. -/
theorem release_wraps_at_zero_witness :
    (release demoSqlQueue 4).cached_message_quantity_ = 2 ^ 64 - 1 :=
  release_wraps_at_zero demoSqlQueue demoSqlConsumer 4 rfl rfl

/-- C4: the completion handler drops the completion when the weak sink
reference no longer resolves, and otherwise invokes the resolved sink with
the error code, the attempt identifier, and the result. -/
theorem popMessageCompletion_spec (cb : Option AsyncReceiveMessageCallback)
    (ec : ErrorCode) (attempt_id : String) (result : ReceiveMessageResult) :
    (cb = none → popMessageCompletion cb ec attempt_id result = none) ∧
    (∀ s, cb = some s →
      popMessageCompletion cb ec attempt_id result = some (s, ec, attempt_id, result)) := by
  constructor
  · intro h
    simp [popMessageCompletion, h]
  · intro s h
    simp [popMessageCompletion, h]

/-- Witness for C4: with the sink destroyed the completion is dropped, and
with sink 7 alive it is invoked with error value 2, attempt id, and
result. -/
theorem popMessageCompletion_spec_witness :
    popMessageCompletion none { value := 2 } "att" { messages := [] } = none ∧
    popMessageCompletion (some { id := 7 }) { value := 2 } "att" { messages := [] } =
      some ({ id := 7 }, { value := 2 }, "att", { messages := [] }) :=
  ⟨(popMessageCompletion_spec none { value := 2 } "att" { messages := [] }).1 rfl,
    (popMessageCompletion_spec (some { id := 7 }) { value := 2 } "att"
      { messages := [] }).2 { id := 7 } rfl⟩

/-- C6: with a live owner, a non-empty supplied attempt id is written to
the request unchanged, identically across repeated calls whatever the
other inputs; a fresh id is generated only when the supplied one is
empty. -/
theorem wrapPopMessageRequest_attempt_stable (pq : ProcessQueueImpl)
    (c : PushConsumerImpl) (req1 req2 : ReceiveMessageRequest)
    (a uid1 uid2 : String) (hc : pq.consumer_ = some c) :
    (a ≠ "" →
      ∃ r1 r2, wrapPopMessageRequest pq req1 a uid1 = some (r1, a) ∧
        wrapPopMessageRequest pq req2 a uid2 = some (r2, a) ∧
        r1.attempt_id = a ∧ r2.attempt_id = a) ∧
    (a = "" →
      ∃ r, wrapPopMessageRequest pq req1 a uid1 =
          some (r, generateAttemptId "" uid1) ∧
        r.attempt_id = generateAttemptId "" uid1) := by
  constructor
  · intro ha
    simp only [wrapPopMessageRequest, hc, if_neg ha]
    exact ⟨_, _, rfl, rfl, rfl, rfl⟩
  · intro ha
    subst ha
    simp only [wrapPopMessageRequest, hc, if_pos rfl]
    exact ⟨_, rfl, rfl⟩

/-- An initial request record, as default-constructed before wrapping. -/
def demoRequest : ReceiveMessageRequest :=
  { group := ""
    message_queue := { topic := { name := "" }, id := 0 }
    filter_expression := { type := .TAG, expression := "" }
    batch_size := 0
    auto_renew := false
    invisible_duration_seconds := 0
    invisible_duration_nanos := 0
    attempt_id := "" }

/-- Witness for C6: two wraps of the live demo SQL queue with the same
supplied attempt id and different raw unique ids both carry exactly that
attempt id. -/
theorem wrapPopMessageRequest_attempt_stable_witness :
    ∃ r1 r2,
      wrapPopMessageRequest demoSqlQueue demoRequest "retry-id" "u1" =
        some (r1, "retry-id") ∧
      wrapPopMessageRequest demoSqlQueue demoRequest "retry-id" "u2" =
        some (r2, "retry-id") ∧
      r1.attempt_id = "retry-id" ∧ r2.attempt_id = "retry-id" :=
  (wrapPopMessageRequest_attempt_stable demoSqlQueue demoSqlConsumer demoRequest
    demoRequest "retry-id" "u1" "u2" rfl).1 (by decide)

/-- C7: the wrapped request splits the invisible duration (milliseconds)
into whole seconds and a sub-second nanosecond remainder whose recombined
value is the duration in nanoseconds; 1500 ms yields seconds 1 and nanos
500000000. -/
theorem wrapPopMessageRequest_invisible_duration (pq : ProcessQueueImpl)
    (c : PushConsumerImpl) (req : ReceiveMessageRequest) (a uid : String)
    (r : ReceiveMessageRequest) (aid : String) (hc : pq.consumer_ = some c)
    (hw : wrapPopMessageRequest pq req a uid = some (r, aid)) :
    r.invisible_duration_seconds * 1000000000 + r.invisible_duration_nanos =
      pq.invisible_time_ * 1000000 ∧
    r.invisible_duration_nanos < 1000000000 ∧
    (pq.invisible_time_ = 1500 →
      r.invisible_duration_seconds = 1 ∧ r.invisible_duration_nanos = 500000000) := by
  simp only [wrapPopMessageRequest, hc, Option.some.injEq, Prod.mk.injEq] at hw
  obtain ⟨hr, -⟩ := hw
  subst hr
  refine ⟨?_, ?_, fun h => ?_⟩ <;> simp only [] <;> omega

/-- The demo SQL queue with an invisible duration of 1500 ms. -/
def demoQueue1500 : ProcessQueueImpl :=
  { demoSqlQueue with invisible_time_ := 1500 }

/-- The request wrapped by the 1500 ms demo queue for attempt id `a`. -/
def wrapped1500 : ReceiveMessageRequest :=
  ((wrapPopMessageRequest demoQueue1500 demoRequest "a" "u").getD
    (demoRequest, "")).1

/-- Witness for C7: the 1500 ms invisible duration serializes to
seconds 1 and nanos 500000000. -/
theorem wrapPopMessageRequest_invisible_duration_witness :
    wrapped1500.invisible_duration_seconds = 1 ∧
    wrapped1500.invisible_duration_nanos = 500000000 :=
  (wrapPopMessageRequest_invisible_duration demoQueue1500 demoSqlConsumer
    demoRequest "a" "u" wrapped1500 "a" rfl (by decide)).2.2 rfl

/-- C8: on a queue whose owner is gone, `receiveMessage` and `popMessage`
send nothing and change nothing, and `accountCache` and `release` leave
the state untouched. -/
theorem ownerGone_noop (pq : ProcessQueueImpl) (now : Nat) (a uid : String)
    (req : ReceiveMessageRequest) (msgs : List Nat) (body_size : Nat)
    (hc : pq.consumer_ = none) :
    receiveMessage pq now a uid req = (pq, a, none) ∧
    popMessage pq now a uid req = (pq, a, none) ∧
    accountCache pq msgs = pq ∧
    release pq body_size = pq := by
  refine ⟨?_, ?_, ?_, ?_⟩ <;>
    simp [receiveMessage, popMessage, accountCache, release, hc]

/-- A process queue whose owning consumer has been destroyed. -/
def deadQueue : ProcessQueueImpl :=
  { message_queue_ := { topic := { name := "demo-topic" }, id := 1 }
    consumer_ := none
    invisible_time_ := 15000
    cached_message_quantity_ := 5
    cached_message_memory_ := 100
    idle_since_ := 0 }

/-- Witness for C8: every operation on the dead queue is a silent no-op. -/
theorem ownerGone_noop_witness :
    receiveMessage deadQueue 10 "x" "uid" demoRequest = (deadQueue, "x", none) ∧
    popMessage deadQueue 10 "x" "uid" demoRequest = (deadQueue, "x", none) ∧
    accountCache deadQueue [1, 2] = deadQueue ∧
    release deadQueue 3 = deadQueue :=
  ownerGone_noop deadQueue 10 "x" "uid" demoRequest [1, 2] 3 rfl

/-- Modelled from the spec: raw identifiers emitted by the Unique ID
Generator (outside `src/`) consist of hexadecimal characters; decimal
digits and the letters a-f or A-F, by code point. -/
def isHexChar (ch : Char) : Bool :=
  decide (48 ≤ ch.toNat ∧ ch.toNat ≤ 57) ||
    decide (97 ≤ ch.toNat ∧ ch.toNat ≤ 102) ||
    decide (65 ≤ ch.toNat ∧ ch.toNat ≤ 70)

/-- A hexadecimal character is never the hyphen (code point 45). -/
theorem isHexChar_ne_hyphen (ch : Char) (h : isHexChar ch = true) :
    ch ≠ Char.ofNat 45 := by
  intro he
  subst he
  exact absurd h (by decide)

/-- A contiguous slice of an all-hex character list contains no hyphen. -/
theorem count_hyphen_slice (l : List Char) (h : ∀ ch ∈ l, isHexChar ch)
    (p n : Nat) : ((l.drop p).take n).count (Char.ofNat 45) = 0 :=
  List.count_eq_zero.mpr fun hm =>
    isHexChar_ne_hyphen _
      (h _ (List.mem_of_mem_drop (List.mem_of_mem_take hm))) rfl

/-- A 32-character raw identifier. -/
def rawId32 : String := "0123456789abcdef0123456789abcdef"

/-- A 34-character raw identifier. -/
def rawId34 : String := "0123456789abcdef0123456789abcdef01"

/-- Counterexample to C3: `generateAttemptId` requires 34 raw characters,
not 32, so the all-hex 32-character raw identifier `rawId32` leaves the
attempt id empty instead of producing the 36-character grouped form the
claim promises. -/
theorem generateAttemptId_claim_counterexample :
    ¬ (∀ uid : String, (∀ ch ∈ uid.data, isHexChar ch) → 32 ≤ uid.length →
        hyphenCount (generateAttemptId "" uid) = 4 ∧
        (generateAttemptId "" uid).length = 36) := by
  intro h
  have h32 := h rawId32 (by decide) (by decide)
  have hempty : generateAttemptId "" rawId32 = "" := by decide
  rw [hempty] at h32
  exact absurd h32.2 (by decide)

/-- C3 amended: for an all-hex raw identifier of at least 34 characters,
the generated attempt id has exactly four hyphens, length 36, and is the
8-4-4-4-12 hyphen grouping of the raw identifier's first 32 characters;
for a raw identifier shorter than 34 characters the attempt id is left
unchanged (hence empty when it was empty). -/
theorem generateAttemptId_amended (attempt_id uid : String)
    (hhex : ∀ ch ∈ uid.data, isHexChar ch) :
    (34 ≤ uid.length →
      hyphenCount (generateAttemptId attempt_id uid) = 4 ∧
      (generateAttemptId attempt_id uid).length = 36 ∧
      generateAttemptId attempt_id uid = hyphenGroup32 (uid.data.take 32)) ∧
    (uid.length < 34 → generateAttemptId attempt_id uid = attempt_id) := by
  constructor
  · intro h34
    have hn : ¬ uid.length < 34 := not_lt.mpr h34
    have hdata : 34 ≤ uid.data.length := h34
    have hone : ("-" : String).data.count (Char.ofNat 45) = 1 := by decide
    have hz := count_hyphen_slice uid.data hhex
    have hdat : ∀ l : List Char, l.asString.data = l := fun _ => rfl
    refine ⟨?_, ?_, ?_⟩
    · simp only [generateAttemptId, if_neg hn, hyphenCount, substr,
        String.data_append, hdat, List.count_append, hone, hz]
    · simp only [generateAttemptId, if_neg hn, String.length_append, substr,
        List.length_asString, List.length_take, List.length_drop]
      have hone' : ("-" : String).length = 1 := rfl
      rw [hone']
      omega
    · simp only [generateAttemptId, if_neg hn, hyphenGroup32, substr,
        List.drop_take, List.take_take, List.drop_zero]
      norm_num
  · intro h
    simp [generateAttemptId, h]

/-- Witness for the amended C3: the 34-character hex identifier `rawId34`
yields a 36-character attempt id with four hyphens, grouping its first 32
characters. -/
theorem generateAttemptId_amended_witness :
    (∀ ch ∈ rawId34.data, isHexChar ch) ∧ 34 ≤ rawId34.length ∧
    hyphenCount (generateAttemptId "" rawId34) = 4 ∧
    (generateAttemptId "" rawId34).length = 36 ∧
    generateAttemptId "" rawId34 = hyphenGroup32 (rawId34.data.take 32) :=
  ⟨by decide, by decide,
    ((generateAttemptId_amended "" rawId34 (by decide)).1 (by decide)).1,
    ((generateAttemptId_amended "" rawId34 (by decide)).1 (by decide)).2.1,
    ((generateAttemptId_amended "" rawId34 (by decide)).1 (by decide)).2.2⟩

/-- Positivity of the 64-bit modulus. -/
theorem U64MOD_pos : 0 < U64MOD := by
  norm_num [U64MOD]

/-- One bookkeeping event on the cache: an admission of a message batch,
identified by the body sizes, or a release of one message. -/
inductive CacheEvent
  | admission (messages : List Nat)
  | release (bodySize : Nat)
deriving DecidableEq, Repr

/-- Apply one bookkeeping event through the corresponding operation. -/
def applyEvent (pq : ProcessQueueImpl) : CacheEvent → ProcessQueueImpl
  | CacheEvent.admission messages => accountCache pq messages
  | CacheEvent.release bodySize => release pq bodySize

/-- Run a sequence of bookkeeping events left to right. -/
def runEvents (pq : ProcessQueueImpl) (evs : List CacheEvent) : ProcessQueueImpl :=
  evs.foldl applyEvent pq

/-- Multiset of the body sizes admitted along a trace. -/
def admittedSizes : List CacheEvent → Multiset Nat
  | [] => 0
  | CacheEvent.admission messages :: rest => (messages : Multiset Nat) + admittedSizes rest
  | CacheEvent.release _ :: rest => admittedSizes rest

/-- Multiset of the body sizes released along a trace. -/
def releasedSizes : List CacheEvent → Multiset Nat
  | [] => 0
  | CacheEvent.admission _ :: rest => releasedSizes rest
  | CacheEvent.release bodySize :: rest => {bodySize} + releasedSizes rest

/-- Release-only-after-matching-admission discipline: in every prefix of
the trace the released sizes form a sub-multiset of the admitted sizes,
i.e. each release matches a distinct earlier admitted message. -/
def disciplined (evs : List CacheEvent) : Prop :=
  ∀ n, releasedSizes (evs.take n) ≤ admittedSizes (evs.take n)

theorem admittedSizes_append (l1 l2 : List CacheEvent) :
    admittedSizes (l1 ++ l2) = admittedSizes l1 + admittedSizes l2 := by
  induction l1 with
  | nil => simp [admittedSizes]
  | cons e rest ih => cases e <;> simp [admittedSizes, ih, add_assoc]

theorem releasedSizes_append (l1 l2 : List CacheEvent) :
    releasedSizes (l1 ++ l2) = releasedSizes l1 + releasedSizes l2 := by
  induction l1 with
  | nil => simp [releasedSizes]
  | cons e rest ih => cases e <;> simp [releasedSizes, ih, add_assoc]

theorem disciplined_append_left (l1 l2 : List CacheEvent)
    (h : disciplined (l1 ++ l2)) : disciplined l1 := by
  intro n
  rcases le_or_lt n l1.length with hn | hn
  · have h' := h n
    rwa [List.take_append_of_le_length hn] at h'
  · have h' := h l1.length
    rw [List.take_append_of_le_length le_rfl, List.take_length] at h'
    rwa [List.take_of_length_le hn.le]

theorem multiset_sum_le (s t : Multiset Nat) (h : s ≤ t) : s.sum ≤ t.sum := by
  obtain ⟨u, rfl⟩ := Multiset.le_iff_exists_add.mp h
  rw [Multiset.sum_add]
  exact Nat.le_add_right _ _

theorem foldl_accountCacheOne_quantity (messages : List Nat) :
    ∀ pq : ProcessQueueImpl, pq.cached_message_quantity_ < U64MOD →
      (messages.foldl accountCacheOne pq).cached_message_quantity_ =
        (pq.cached_message_quantity_ + messages.length) % U64MOD := by
  induction messages with
  | nil =>
    intro pq h
    simpa using (Nat.mod_eq_of_lt h).symm
  | cons m rest ih =>
    intro pq h
    rw [List.foldl_cons, ih _ (Nat.mod_lt _ U64MOD_pos)]
    simp only [accountCacheOne]
    rw [Nat.mod_add_mod, List.length_cons]
    congr 1
    omega

theorem foldl_accountCacheOne_memory (messages : List Nat) :
    ∀ pq : ProcessQueueImpl, pq.cached_message_memory_ < U64MOD →
      (messages.foldl accountCacheOne pq).cached_message_memory_ =
        (pq.cached_message_memory_ + messages.sum) % U64MOD := by
  induction messages with
  | nil =>
    intro pq h
    simpa using (Nat.mod_eq_of_lt h).symm
  | cons m rest ih =>
    intro pq h
    rw [List.foldl_cons, ih _ (Nat.mod_lt _ U64MOD_pos)]
    simp only [accountCacheOne]
    rw [Nat.mod_add_mod, List.sum_cons]
    congr 1
    omega

theorem foldl_accountCacheOne_consumer (messages : List Nat) :
    ∀ pq : ProcessQueueImpl,
      (messages.foldl accountCacheOne pq).consumer_ = pq.consumer_ := by
  induction messages with
  | nil => intro pq; rfl
  | cons m rest ih =>
    intro pq
    rw [List.foldl_cons, ih]
    rfl

theorem applyEvent_consumer (pq : ProcessQueueImpl) (e : CacheEvent) :
    (applyEvent pq e).consumer_ = pq.consumer_ := by
  cases e with
  | admission messages =>
    cases hc : pq.consumer_ <;>
      simp [applyEvent, accountCache, hc, foldl_accountCacheOne_consumer]
  | release b =>
    cases hc : pq.consumer_ <;> simp [applyEvent, release, hc]

theorem runEvents_consumer (evs : List CacheEvent) :
    ∀ pq : ProcessQueueImpl, (runEvents pq evs).consumer_ = pq.consumer_ := by
  induction evs with
  | nil => intro pq; rfl
  | cons e rest ih =>
    intro pq
    rw [runEvents, List.foldl_cons]
    have h := ih (applyEvent pq e)
    rw [runEvents] at h
    rw [h, applyEvent_consumer]

theorem mod_sub_one (M x : Nat) (h1 : 1 ≤ x) (h2 : x < M) :
    (x + (M - 1)) % M = x - 1 := by
  have hx : x + (M - 1) = (x - 1) + M := by omega
  rw [hx, Nat.add_mod_right, Nat.mod_eq_of_lt (by omega)]

theorem mod_sub_le (M x b : Nat) (hb : b ≤ x) (h2 : x < M) :
    (x + (M - b % M)) % M = x - b := by
  have hbM : b < M := lt_of_le_of_lt hb h2
  rw [Nat.mod_eq_of_lt hbM]
  have hx : x + (M - b) = (x - b) + M := by omega
  rw [hx, Nat.add_mod_right, Nat.mod_eq_of_lt (by omega)]

/-- C2: from a fresh queue with a live owner, over any disciplined trace
of admissions and releases whose admitted totals fit in 64 bits, the
quantity counter equals the number of admitted messages minus the number
of releases — never negative, because the releases never outnumber the
admissions — and the memory counter equals the sum of admitted body sizes
minus the sum of released body sizes. -/
theorem cache_accounting_spec (pq : ProcessQueueImpl) (c : PushConsumerImpl)
    (evs : List CacheEvent) (hc : pq.consumer_ = some c)
    (hq0 : pq.cached_message_quantity_ = 0)
    (hm0 : pq.cached_message_memory_ = 0)
    (hd : disciplined evs)
    (hcard : Multiset.card (admittedSizes evs) < U64MOD)
    (hsum : (admittedSizes evs).sum < U64MOD) :
    Multiset.card (releasedSizes evs) ≤ Multiset.card (admittedSizes evs) ∧
    (runEvents pq evs).cached_message_quantity_ =
      Multiset.card (admittedSizes evs) - Multiset.card (releasedSizes evs) ∧
    (releasedSizes evs).sum ≤ (admittedSizes evs).sum ∧
    (runEvents pq evs).cached_message_memory_ =
      (admittedSizes evs).sum - (releasedSizes evs).sum := by
  revert hd hcard hsum
  induction evs using List.reverseRecOn with
  | nil =>
    intro _ _ _
    simp [runEvents, admittedSizes, releasedSizes, hq0, hm0]
  | append_singleton xs e ih =>
    intro hd hcard hsum
    have hd' : disciplined xs := disciplined_append_left xs [e] hd
    have hAapp := admittedSizes_append xs [e]
    have hRapp := releasedSizes_append xs [e]
    have hcard' : Multiset.card (admittedSizes xs) < U64MOD := by
      rw [hAapp, Multiset.card_add] at hcard
      omega
    have hsum' : (admittedSizes xs).sum < U64MOD := by
      rw [hAapp, Multiset.sum_add] at hsum
      omega
    obtain ⟨ih1, ih2, ih3, ih4⟩ := ih hd' hcard' hsum'
    have hstep : runEvents pq (xs ++ [e]) = applyEvent (runEvents pq xs) e := by
      rw [runEvents, List.foldl_append]
      rfl
    have hcons : (runEvents pq xs).consumer_ = some c := by
      rw [runEvents_consumer, hc]
    cases e with
    | admission messages =>
      have hA1 : admittedSizes (xs ++ [CacheEvent.admission messages]) =
          admittedSizes xs + (messages : Multiset Nat) := by
        rw [hAapp]
        simp [admittedSizes]
      have hR1 : releasedSizes (xs ++ [CacheEvent.admission messages]) =
          releasedSizes xs := by
        rw [hRapp]
        simp [releasedSizes]
      have hq : (applyEvent (runEvents pq xs)
            (CacheEvent.admission messages)).cached_message_quantity_ =
          ((runEvents pq xs).cached_message_quantity_ + messages.length) % U64MOD := by
        simp only [applyEvent, accountCache, hcons]
        exact foldl_accountCacheOne_quantity messages (runEvents pq xs)
          (by rw [ih2]; omega)
      have hm : (applyEvent (runEvents pq xs)
            (CacheEvent.admission messages)).cached_message_memory_ =
          ((runEvents pq xs).cached_message_memory_ + messages.sum) % U64MOD := by
        simp only [applyEvent, accountCache, hcons]
        exact foldl_accountCacheOne_memory messages (runEvents pq xs)
          (by rw [ih4]; omega)
      rw [hA1, Multiset.card_add, Multiset.coe_card] at hcard
      rw [hA1, Multiset.sum_add, Multiset.sum_coe] at hsum
      rw [hstep, hq, hm, hA1, hR1, ih2, ih4, Multiset.card_add,
        Multiset.coe_card, Multiset.sum_add, Multiset.sum_coe]
      refine ⟨by omega, ?_, by omega, ?_⟩
      · rw [Nat.mod_eq_of_lt (by omega)]
        omega
      · rw [Nat.mod_eq_of_lt (by omega)]
        omega
    | release b =>
      have hfull := hd (xs ++ [CacheEvent.release b]).length
      rw [List.take_length] at hfull
      have hA1 : admittedSizes (xs ++ [CacheEvent.release b]) =
          admittedSizes xs := by
        rw [hAapp]
        simp [admittedSizes]
      have hR1 : releasedSizes (xs ++ [CacheEvent.release b]) =
          releasedSizes xs + {b} := by
        rw [hRapp]
        simp [releasedSizes]
      rw [hA1, hR1] at hfull
      have hcardle : Multiset.card (releasedSizes xs) + 1 ≤
          Multiset.card (admittedSizes xs) := by
        have h := Multiset.card_le_card hfull
        rwa [Multiset.card_add, Multiset.card_singleton] at h
      have hsumle : (releasedSizes xs).sum + b ≤ (admittedSizes xs).sum := by
        have h := multiset_sum_le _ _ hfull
        rwa [Multiset.sum_add, Multiset.sum_singleton] at h
      have hq : (applyEvent (runEvents pq xs)
            (CacheEvent.release b)).cached_message_quantity_ =
          ((runEvents pq xs).cached_message_quantity_ + (U64MOD - 1)) % U64MOD := by
        simp only [applyEvent, release, hcons]
      have hm : (applyEvent (runEvents pq xs)
            (CacheEvent.release b)).cached_message_memory_ =
          ((runEvents pq xs).cached_message_memory_ +
            (U64MOD - b % U64MOD)) % U64MOD := by
        simp only [applyEvent, release, hcons]
      rw [hstep, hq, hm, hA1, hR1, ih2, ih4, Multiset.card_add,
        Multiset.card_singleton, Multiset.sum_add, Multiset.sum_singleton]
      refine ⟨by omega, ?_, by omega, ?_⟩
      · rw [mod_sub_one U64MOD _ (by omega) (by omega)]
        omega
      · rw [mod_sub_le U64MOD _ b (by omega) (by omega)]
        omega

/-- A two-event disciplined trace: admit two messages of body sizes 3 and
4, then release the 4-byte one. -/
def demoEvents : List CacheEvent :=
  [CacheEvent.admission [3, 4], CacheEvent.release 4]

/-- The demo trace obeys the matching-admission discipline. -/
theorem demoEvents_disciplined : disciplined demoEvents := by
  intro n
  match n with
  | 0 => decide
  | 1 => decide
  | (k + 2) =>
    rw [List.take_of_length_le (by simp [demoEvents])]
    decide

/-- Witness for C2: running the demo trace on the fresh live demo SQL
queue leaves one cached message of 3 bytes, the admitted totals minus the
released totals. -/
theorem cache_accounting_spec_witness :
    (runEvents demoSqlQueue demoEvents).cached_message_quantity_ =
      Multiset.card (admittedSizes demoEvents) -
        Multiset.card (releasedSizes demoEvents) ∧
    (runEvents demoSqlQueue demoEvents).cached_message_memory_ =
      (admittedSizes demoEvents).sum - (releasedSizes demoEvents).sum :=
  ⟨(cache_accounting_spec demoSqlQueue demoSqlConsumer demoEvents rfl rfl rfl
      demoEvents_disciplined (by decide) (by decide)).2.1,
    (cache_accounting_spec demoSqlQueue demoSqlConsumer demoEvents rfl rfl rfl
      demoEvents_disciplined (by decide) (by decide)).2.2.2⟩

end RocketMQ
